import Mathlib

/-
Shallow embedding of the zest request-dispatch engine
(https://github.com/lemonc7/zest): the Response wrapper and Context from
context.go (zest snapshot), the default error handler from error.go, the
middleware chain builder and dispatch from zest.go, the Group logic from
group.go, and Go slice semantics for the middleware sequences.  Route
matching is delegated by the source to Go 1.22's net/http ServeMux and is
therefore modelled from the spec (see the resolver section below).
-/

namespace Zest

/-- View of an inbound http.Request: the fields the embedded code reads.
`xff` and `xreal` are the values of the X-Forwarded-For and X-Real-Ip
headers ("" when absent), `remote` is Request.RemoteAddr. -/
structure Req where
  method : String
  path : String
  xff : String
  xreal : String
  remote : String
deriving DecidableEq, Repr

/-- Response wrapper (context.go): tracks status, byte count and the
committed flag over an underlying http.ResponseWriter.  `writerId`
identifies the bound underlying writer; `wireHeaderWrites` counts the
passthrough calls to the underlying writer's WriteHeader (ghost
instrumentation used to state the at-most-once header-commit property). -/
structure Response where
  writerId : Nat
  status : Int
  size : Int
  committed : Bool
  wireHeaderWrites : Nat
deriving DecidableEq, Repr

/-- Response.WriteHeader: no-op once committed; otherwise records the
status, writes the header to the wire and commits. -/
def Response.WriteHeader (r : Response) (code : Int) : Response :=
  if r.committed then r
  else { r with status := code, committed := true,
                wireHeaderWrites := r.wireHeaderWrites + 1 }

/-- Response.Write: commits first (defaulting a zero status to 200), then
writes the chunk and adds its length to Size.  The underlying writer is
assumed to accept the full chunk. -/
def Response.Write (r : Response) (b : String) : Response :=
  let r1 :=
    if r.committed then r
    else
      let r2 := if r.status = 0 then { r with status := 200 } else r
      r2.WriteHeader r2.status
  { r1 with size := r1.size + (b.toList.length : Int) }

/-- Failure values handlers return.  `other` is any non-HTTPError error
whose Error() text is its description; the two `http` constructors are
HTTPError with Internal nil respectively non-nil (Internal always wraps
another failure value). -/
inductive Err where
  | other (desc : String)
  | httpNoInternal (statusCode : Int) (msg : String)
  | httpWithInternal (statusCode : Int) (msg : String) (internal : Err)
deriving DecidableEq, Repr

/-- Per-request Context (context.go).  The response header map and the
wire body live in the underlying ResponseWriter in Go; they are inlined
here so a writer rebind models them as fresh.  `errCalls` counts engine
error-handler invocations and `log` is an execution trace; both are ghost
instrumentation. -/
structure Context where
  resp : Response
  headers : List (String × String)
  body : List String
  store : List (String × String)
  request : Option Req
  path : String
  method : String
  errCalls : Nat
  log : List String
deriving DecidableEq, Repr

/-- Header().Set semantics on the response header map: replace or add. -/
def hset (hs : List (String × String)) (k v : String) : List (String × String) :=
  match hs with
  | [] => [(k, v)]
  | (k0, v0) :: rest => if k0 = k then (k, v) :: rest else (k0, v0) :: hset rest k v

/-- Lookup in a header map. -/
def hget (hs : List (String × String)) (k : String) : Option String :=
  match hs with
  | [] => none
  | (k0, v0) :: rest => if k0 = k then some v0 else hget rest k

/-- Context.SetHeader. -/
def Context.SetHeader (c : Context) (k v : String) : Context :=
  { c with headers := hset c.headers k v }

/-- Context.SetStatus delegates to Response.WriteHeader. -/
def Context.SetStatus (c : Context) (code : Int) : Context :=
  { c with resp := c.resp.WriteHeader code }

/-- Body write through the Response wrapper; the chunk also lands on the
wire body. -/
def Context.writeBody (c : Context) (b : String) : Context :=
  { c with resp := c.resp.Write b, body := c.body ++ [b] }

/-- Rendering of json.Encoder.Encode on Map\x7b"error": msg\x7d (no
escaping needed for the messages under study; Encode appends a newline). -/
def renderJsonError (msg : String) : String :=
  "\x7b\"error\":\"" ++ msg ++ "\"\x7d\n"

/-- Context.JSON specialised to the single body shape the error path
emits: sets Content-Type, sets the status, encodes the error object. -/
def Context.JSON (c : Context) (status : Int) (msg : String) : Context :=
  ((c.SetHeader "Content-Type" "application/json").SetStatus status).writeBody
    (renderJsonError msg)

/-- Context.NoContent: only sets the status. -/
def Context.NoContent (c : Context) (status : Int) : Context :=
  c.SetStatus status

/-- Context.Set on the side store (make-on-first-use is observationally
the empty list). -/
def Context.Set (c : Context) (k v : String) : Context :=
  { c with store := hset c.store k v }

/-- Context.Redirect: rejects status codes outside 300..399 with an
error before touching anything, otherwise sets Location and the status. -/
def Context.Redirect (c : Context) (status : Int) (url : String) : Context × Option Err :=
  if status < 300 ∨ 399 < status then (c, some (Err.other "invalid status code"))
  else ((c.SetHeader "Location" url).SetStatus status, none)

/-- Method of the bound request ("" when none is bound), as read by
c.Request.Method. -/
def reqMethod (c : Context) : String :=
  match c.request with
  | some r => r.method
  | none => ""

/-- Context.reset: rebinds the writer (fresh header map and wire body)
and the request, restores Status to 200, zeroes Size, clears the
committed flag, clears the store and the ghost fields. -/
def Context.reset (_c : Context) (w : Nat) (r : Option Req) : Context :=
  { resp := { writerId := w, status := 200, size := 0, committed := false,
              wireHeaderWrites := 0 },
    headers := [], body := [], store := [],
    request := r,
    path := match r with | some rq => rq.path | none => "",
    method := match r with | some rq => rq.method | none => "",
    errCalls := 0, log := [] }

/-- A blank Context, as NewContext(nil, nil) produces. -/
def ctx0 : Context :=
  { resp := { writerId := 0, status := 200, size := 0, committed := false,
              wireHeaderWrites := 0 },
    headers := [], body := [], store := [], request := none,
    path := "", method := "", errCalls := 0, log := [] }

/-- DefaultErrHandlerFunc (error.go): nothing once committed; classify the
failure (HTTPError directly, an HTTPError nested in Internal replaces the
outer one, anything else becomes 500 with its Error() text); HEAD gets
only the status, otherwise a JSON error body. -/
def DefaultErrHandlerFunc (e : Err) (c : Context) : Context :=
  if c.resp.committed then c
  else
    let he : Int × String :=
      match e with
      | .other d => (500, d)
      | .httpNoInternal sc m => (sc, m)
      | .httpWithInternal sc m i =>
          match i with
          | .httpNoInternal sc2 m2 => (sc2, m2)
          | .httpWithInternal sc2 m2 _ => (sc2, m2)
          | .other _ => (sc, m)
    if reqMethod c = "HEAD" then c.NoContent he.1
    else c.JSON he.1 he.2

/-- An invocation of the engine's error handler (z.ErrHandler with the
default handler installed); the ghost counter records the invocation. -/
def errHandlerInvoke (c : Context) (e : Err) : Context :=
  DefaultErrHandlerFunc e { c with errCalls := c.errCalls + 1 }

/-- Context.Error delegates to the engine's error handler. -/
def Context.Error (c : Context) (e : Err) : Context :=
  errHandlerInvoke c e

/-- HandlerFunc: takes the Context, returns it with an optional failure. -/
def Handler : Type := Context → Context × Option Err

/-- MiddlewareFunc: decorates a next handler. -/
def Middleware : Type := Handler → Handler

/-- The chain builder `use` (zest.go): iterate the middleware sequence in
reverse, re-binding handler = mws[i](handler). -/
def use (h : Handler) (mws : List Middleware) : Handler :=
  mws.foldr (fun m k => m k) h

/-- Zest.handle's composition step: global middleware first, then the
middleware passed at registration. -/
def zestCompose (global mws : List Middleware) (h : Handler) : Handler :=
  use h (global ++ mws)

/-- Group.handle's composition step: group middleware then route
middleware, handed to the engine which prepends the global sequence. -/
def groupCompose (global groupMws routeMws : List Middleware) (h : Handler) : Handler :=
  zestCompose global (groupMws ++ routeMws) h

/-- The per-request entry point of a registered route (zest.go handle):
reset a pooled Context, run the composed handler, hand any failure to the
engine's error handler. -/
def zestServe (mws : List Middleware) (h : Handler) (w : Nat) (r : Req) : Context :=
  let c := ctx0.reset w (some r)
  let p := use h mws c
  match p.2 with
  | some e => errHandlerInvoke p.1 e
  | none => p.1

/-- The process-wide catch-all registered by New (zest.go): resets a
pooled Context and produces a 404 failure through the error handler. -/
def catchAllServe (w : Nat) (r : Req) : Context :=
  errHandlerInvoke (ctx0.reset w (some r)) (Err.httpNoInternal 404 "not found")

/-- The Logger middleware's error flow (middleware/logger.go): run next,
on failure call c.Error with it, and return the original failure so outer
layers see it unchanged. -/
def loggerMw : Middleware :=
  fun next c =>
    let p := next c
    let c1 :=
      match p.2 with
      | some e => p.1.Error e
      | none => p.1
    (c1, p.2)

/-- ASCII whitespace test (the space forms relevant to header values). -/
def isSp (ch : Char) : Bool :=
  ch = ' ' ∨ ch = '\t' ∨ ch = '\n' ∨ ch = '\r'

/-- strings.TrimSpace on the ASCII space forms. -/
def goTrim (s : String) : String :=
  ⟨((s.toList.dropWhile isSp).reverse.dropWhile isSp).reverse⟩

/-- strings.Cut(s, ",") as used by ClientIP: when a comma is present keep
the part before the first one, otherwise keep the whole value. -/
def goCutXFF (s : String) : String :=
  if s.toList.contains ',' then ⟨s.toList.takeWhile (fun ch => ¬(ch = ','))⟩ else s

/-- Split a character list at its last colon (only called when one is
present). -/
def lastColonSplit (cs : List Char) : List Char × List Char :=
  match cs with
  | [] => ([], [])
  | ch :: rest =>
      if rest.contains ':' then
        let p := lastColonSplit rest
        (ch :: p.1, p.2)
      else if ch = ':' then ([], rest)
      else (ch :: rest, [])

/-- net.SplitHostPort for unbracketed host:port forms: split at the last
colon; fail when no colon is present, when brackets appear (bracketed
IPv6 is outside this model) or when the host still holds a colon. -/
def splitHostPort (s : String) : Option (String × String) :=
  let cs := s.toList
  if cs.contains '[' ∨ cs.contains ']' then none
  else if cs.contains ':' then
    let p := lastColonSplit cs
    if p.1.contains ':' then none else some (⟨p.1⟩, ⟨p.2⟩)
  else none

/-- Context.ClientIP on the bound request's header values: first
X-Forwarded-For segment, else X-Real-Ip, else RemoteAddr without its
port, else "". -/
def clientIPOf (r : Req) : String :=
  let v1 := goTrim (goCutXFF r.xff)
  let v2 := if v1 = "" then goTrim r.xreal else v1
  if ¬(v2 = "") then v2
  else
    match splitHostPort (goTrim r.remote) with
    | some p => p.1
    | none => ""

/-- Context.ClientIP ("" when no request is bound). -/
def Context.ClientIP (c : Context) : String :=
  match c.request with
  | some r => clientIPOf r
  | none => ""

/-- The operations a handler may perform on the Response wrapper
directly: SetStatus (which delegates to WriteHeader), WriteHeader, and a
body write. -/
inductive ROp where
  | setStat (code : Int)
  | writeHead (code : Int)
  | writeB (b : String)
deriving DecidableEq, Repr

/-- One Response-level step. -/
def rstep (r : Response) : ROp → Response
  | .setStat code => r.WriteHeader code
  | .writeHead code => r.WriteHeader code
  | .writeB b => r.Write b

/-- A sequence of Response-level operations. -/
def rrun (r : Response) : List ROp → Response
  | [] => r
  | op :: ops => rrun (rstep r op) ops

/-- The Context-level operations a request's handler code may perform,
including invocations of the engine error handler. -/
inductive COp where
  | setStat (code : Int)
  | writeB (b : String)
  | hdr (k v : String)
  | jsonW (code : Int) (msg : String)
  | noCont (code : Int)
  | redir (code : Int) (url : String)
  | errH (e : Err)
deriving DecidableEq, Repr

/-- One Context-level step. -/
def cstep (c : Context) : COp → Context
  | .setStat code => c.SetStatus code
  | .writeB b => c.writeBody b
  | .hdr k v => c.SetHeader k v
  | .jsonW code msg => c.JSON code msg
  | .noCont code => c.NoContent code
  | .redir code url => (c.Redirect code url).1
  | .errH e => errHandlerInvoke c e

/-- A sequence of Context-level operations. -/
def crun (c : Context) : List COp → Context
  | [] => c
  | op :: ops => crun (cstep c op) ops

/-- Header-commit invariant: the underlying writer has seen exactly one
WriteHeader when the wrapper is committed and none before. -/
def headerInv (r : Response) : Prop :=
  r.wireHeaderWrites = if r.committed then 1 else 0

/-- Modelled from the spec: a pattern segment — the route-matching data
model lives in Go 1.22's net/http ServeMux, which the repository
delegates to and which is not part of its sources. -/
inductive Seg where
  | lit (s : String)
  | par (name : String)
  | wild (name : String)
deriving DecidableEq, Repr

/-- Join path segments with single slashes. -/
def joinSlash : List String → String
  | [] => ""
  | [x] => x
  | x :: rest => x ++ "/" ++ joinSlash rest

/-- Modelled from the spec: matching a pattern against the path's
segments — a literal must equal the segment, a capture matches any one
non-empty segment and binds it, a trailing wildcard matches the joined
remainder. -/
def matchPat : List Seg → List String → Option (List (String × String))
  | [], [] => some []
  | [Seg.wild name], rest => some [(name, joinSlash rest)]
  | Seg.lit s :: ps, x :: xs => if s = x then matchPat ps xs else none
  | Seg.par name :: ps, x :: xs =>
      if x = "" then none else (matchPat ps xs).map (fun b => (name, x) :: b)
  | _, _ => none

/-- Specificity rank of one segment: literal over capture over wildcard. -/
def segRank : Seg → Nat
  | .lit _ => 2
  | .par _ => 1
  | .wild _ => 0

/-- Rank sequence of a pattern. -/
def ranksOf (p : List Seg) : List Nat :=
  p.map segRank

/-- Strict "more specific than" on rank sequences: position by position,
a higher rank wins; when one pattern ends first against a surviving
remainder (which can only be a trailing wildcard), the shorter exact
pattern is the more specific. -/
def lexGT : List Nat → List Nat → Bool
  | [], [] => false
  | [], _ :: _ => true
  | _ :: _, [] => false
  | a :: as, b :: bs => if b < a then true else if a < b then false else lexGT as bs

/-- A registered route: method, parsed pattern, handler identifier. -/
structure Route where
  method : String
  pat : List Seg
  hid : Nat
deriving DecidableEq, Repr

/-- Modelled from the spec: resolution considers all candidate routes for
the method and keeps the most specific match (the earlier registration on
a tie). -/
def resolve : List Route → String → List String → Option (Route × List (String × String))
  | [], _, _ => none
  | r :: rs, m, path =>
      let rest := resolve rs m path
      if r.method = m then
        match matchPat r.pat path with
        | some b =>
            match rest with
            | none => some (r, b)
            | some (r', b') =>
                if lexGT (ranksOf r'.pat) (ranksOf r.pat) then some (r', b')
                else some (r, b)
        | none => rest
      else rest

/-- A (method, pattern) slice of a Go backing array: pointer, length,
capacity.  Slices in the group code always view an array from index 0. -/
structure GoSlice where
  ptr : Nat
  len : Nat
  cap : Nat
deriving DecidableEq, Repr

/-- The heap of backing arrays; each array is a cap-sized block, `none`
marking not-yet-written cells.  Cells hold middleware identifiers. -/
structure SliceHeap where
  arrays : List (List (Option Nat))
deriving DecidableEq, Repr

/-- Write a run of values into an array starting at an index. -/
def writeSeq (arr : List (Option Nat)) (i : Nat) (xs : List Nat) : List (Option Nat) :=
  match xs with
  | [] => arr
  | x :: rest => writeSeq (arr.set i (some x)) (i + 1) rest

/-- Replace the array at a pointer. -/
def setArr (st : SliceHeap) (p : Nat) (arr : List (Option Nat)) : SliceHeap :=
  ⟨st.arrays.set p arr⟩

/-- Allocate a fresh array, returning its pointer. -/
def alloc (st : SliceHeap) (arr : List (Option Nat)) : SliceHeap × Nat :=
  (⟨st.arrays ++ [arr]⟩, st.arrays.length)

/-- Go's append capacity growth for small element counts: grow to the
needed length when doubling is not enough, else double (the 256-element
threshold and allocator size-class rounding change nothing at the sizes
exercised here). -/
def goGrow (oldCap newLen : Nat) : Nat :=
  if 2 * oldCap < newLen then newLen else 2 * oldCap

/-- Go's append: write in place when the backing array has spare
capacity — the returned slice then shares that array — otherwise
allocate a grown copy. -/
def goAppend (st : SliceHeap) (s : GoSlice) (xs : List Nat) : SliceHeap × GoSlice :=
  let newLen := s.len + xs.length
  if newLen ≤ s.cap then
    let arr := st.arrays.getD s.ptr []
    (setArr st s.ptr (writeSeq arr s.len xs), { s with len := newLen })
  else
    let newCap := goGrow s.cap newLen
    let kept := (st.arrays.getD s.ptr []).take s.len
    let content := kept ++ xs.map some ++ List.replicate (newCap - newLen) none
    let p := alloc st content
    (p.1, { ptr := p.2, len := newLen, cap := newCap })

/-- The values a slice currently views. -/
def sliceVals (st : SliceHeap) (s : GoSlice) : List Nat :=
  ((st.arrays.getD s.ptr []).take s.len).map (fun o => o.getD 0)

/-- A Group as stored: accumulated path prefix and middleware slice. -/
structure GroupS where
  pfx : String
  mws : GoSlice
deriving DecidableEq, Repr

/-- Zest.Group: a fresh group whose middleware slice is the call-site
variadic slice (length = capacity). -/
def zestGroup (st : SliceHeap) (pfx : String) (xs : List Nat) : SliceHeap × GroupS :=
  let p := alloc st (xs.map some)
  (p.1, { pfx := pfx, mws := { ptr := p.2, len := xs.length, cap := xs.length } })

/-- Group.Group: concatenate prefixes and Go-append the child middleware
onto the parent's slice. -/
def groupGroup (st : SliceHeap) (g : GroupS) (pfx : String) (xs : List Nat) :
    SliceHeap × GroupS :=
  let p := goAppend st g.mws xs
  (p.1, { pfx := g.pfx ++ pfx, mws := p.2 })

/-- Group.Use: Go-append onto the group's own middleware slice. -/
def groupUse (st : SliceHeap) (g : GroupS) (xs : List Nat) : SliceHeap × GroupS :=
  let p := goAppend st g.mws xs
  (p.1, { g with mws := p.2 })

/-- The middleware sequence Group.handle snapshots for a registration:
the group slice Go-appended with the route middleware, read at
registration time. -/
def groupHandleMws (st : SliceHeap) (g : GroupS) (xs : List Nat) : List Nat :=
  let p := goAppend st g.mws xs
  sliceVals p.1 p.2

/-- Append entries to the ghost execution log. -/
def addLog (c : Context) (xs : List String) : Context :=
  { c with log := c.log ++ xs }

/-- Label of a middleware's before-phase log entry. -/
def bef (l : String) : String :=
  l ++ "-before"

/-- Label of a middleware's after-phase log entry. -/
def aft (l : String) : String :=
  l ++ "-after"

/-- An observing middleware: logs its before-phase, runs next, logs its
after-phase, passes the failure through unchanged. -/
def mkMw (name : String) : Middleware :=
  fun next c =>
    let p := next (addLog c [bef name])
    (addLog p.1 [aft name], p.2)

/-- A terminal handler that logs its execution and succeeds. -/
def termH : Handler :=
  fun c => (addLog c ["h"], none)

lemma addLog_nil (c : Context) : addLog c [] = c := by
  simp [addLog]

lemma addLog_addLog (c : Context) (xs ys : List String) :
    addLog (addLog c xs) ys = addLog c (xs ++ ys) := by
  simp [addLog]

/-- Unrolling the chain builder over observing middleware: all
before-phases run first (in sequence order), then the wrapped handler,
then all after-phases in reverse order. -/
lemma use_mkMw (labels : List String) (h : Handler) (c : Context) :
    use h (labels.map mkMw) c =
      (addLog (h (addLog c (labels.map bef))).1 (labels.reverse.map aft),
       (h (addLog c (labels.map bef))).2) := by
  induction labels generalizing c with
  | nil => simp [use, addLog_nil]
  | cons l ls ih =>
      show mkMw l (use h (ls.map mkMw)) c = _
      simp only [mkMw, ih, addLog_addLog, List.map_cons, List.reverse_cons,
        List.map_append, List.map_nil, List.singleton_append, List.append_nil]

/-- Claim C1: the chain composed for a registration — global middleware,
then group middleware, then route middleware, wrapped by `use` around the
terminal handler — runs before-phases outermost-to-innermost in
registration order (global, group, route), then the handler, then the
after-phases in reverse; in particular middleware [A, B] around h run as
A-before, B-before, h, B-after, A-after. -/
theorem middleware_chain_order :
    (∀ (g gr rt : List String) (h : Handler) (c : Context),
        groupCompose (g.map mkMw) (gr.map mkMw) (rt.map mkMw) h c =
          (addLog (h (addLog c ((g ++ (gr ++ rt)).map bef))).1
              ((g ++ (gr ++ rt)).reverse.map aft),
           (h (addLog c ((g ++ (gr ++ rt)).map bef))).2))
    ∧ (use termH [mkMw "A", mkMw "B"] ctx0).1.log =
        ["A-before", "B-before", "h", "B-after", "A-after"] := by
  constructor
  · intro g gr rt h c
    have hmap : g.map mkMw ++ (gr.map mkMw ++ rt.map mkMw) =
        (g ++ (gr ++ rt)).map mkMw := by
      simp
    show use h (g.map mkMw ++ (gr.map mkMw ++ rt.map mkMw)) c = _
    rw [hmap, use_mkMw]
  · decide

lemma writeHeader_of_committed (r : Response) (k : Int) (h : r.committed = true) :
    r.WriteHeader k = r := by
  simp [Response.WriteHeader, h]

lemma write_of_committed (r : Response) (b : String) (h : r.committed = true) :
    r.Write b = { r with size := r.size + (b.toList.length : Int) } := by
  simp [Response.Write, h]

lemma rstep_committed (r : Response) (op : ROp) (h : r.committed = true) :
    (rstep r op).committed = true ∧ (rstep r op).status = r.status := by
  cases op <;>
    simp [rstep, writeHeader_of_committed _ _ h, write_of_committed _ _ h, h]

lemma rrun_frozen (ops : List ROp) (r : Response) (h : r.committed = true) :
    (rrun r ops).committed = true ∧ (rrun r ops).status = r.status := by
  induction ops generalizing r with
  | nil => exact ⟨h, rfl⟩
  | cons op ops ih =>
      have hs := rstep_committed r op h
      have := ih (rstep r op) hs.1
      exact ⟨this.1, this.2.trans hs.2⟩

lemma rrun_append (r : Response) (xs ys : List ROp) :
    rrun r (xs ++ ys) = rrun (rrun r xs) ys := by
  induction xs generalizing r with
  | nil => rfl
  | cons op ops ih => simpa [rrun] using ih (rstep r op)

/-- Claim C2: over any sequence of SetStatus/WriteHeader/Write calls the
committed flag is monotone (so it turns true at most once) and the status
is frozen once committed; a body write on an uncommitted response with no
status set commits with 200; two SetStatus calls with different codes
before any body write leave the first code in place. -/
theorem response_commit_invariants :
    (∀ (r : Response) (ops1 ops2 : List ROp),
        (rrun r ops1).committed = true →
          (rrun r (ops1 ++ ops2)).committed = true ∧
          (rrun r (ops1 ++ ops2)).status = (rrun r ops1).status)
    ∧ (∀ (r : Response) (b : String), r.committed = false → r.status = 0 →
        (r.Write b).committed = true ∧ (r.Write b).status = 200)
    ∧ (∀ (r : Response) (k1 k2 : Int), r.committed = false → k1 ≠ k2 →
        ((r.WriteHeader k1).WriteHeader k2).status = k1 ∧
        ((r.WriteHeader k1).WriteHeader k2).committed = true) := by
  refine ⟨?_, ?_, ?_⟩
  · intro r ops1 ops2 h
    rw [rrun_append]
    exact rrun_frozen ops2 (rrun r ops1) h
  · intro r b h h0
    simp [Response.Write, Response.WriteHeader, h, h0]
  · intro r k1 k2 h _
    simp [Response.WriteHeader, h]

/-- Concrete instance discharging the hypotheses of
`response_commit_invariants`. -/
theorem response_commit_invariants_witness :
    (rrun ⟨0, 0, 0, false, 0⟩ [ROp.setStat 201]).committed = true ∧
    ((rrun ⟨0, 0, 0, false, 0⟩ ([ROp.setStat 201] ++ [ROp.writeB "x"])).committed = true ∧
     (rrun ⟨0, 0, 0, false, 0⟩ ([ROp.setStat 201] ++ [ROp.writeB "x"])).status =
       (rrun ⟨0, 0, 0, false, 0⟩ [ROp.setStat 201]).status) ∧
    ((Response.Write ⟨0, 0, 0, false, 0⟩ "hi").committed = true ∧
     (Response.Write ⟨0, 0, 0, false, 0⟩ "hi").status = 200) ∧
    ((Response.WriteHeader (Response.WriteHeader ⟨0, 0, 0, false, 0⟩ 404) 200).status = 404 ∧
     (Response.WriteHeader (Response.WriteHeader ⟨0, 0, 0, false, 0⟩ 404) 200).committed = true) :=
  ⟨by decide,
   response_commit_invariants.1 ⟨0, 0, 0, false, 0⟩ [ROp.setStat 201] [ROp.writeB "x"]
     (by decide),
   response_commit_invariants.2.1 ⟨0, 0, 0, false, 0⟩ "hi" (by decide) (by decide),
   response_commit_invariants.2.2 ⟨0, 0, 0, false, 0⟩ 404 200 (by decide) (by decide)⟩

lemma hget_hset_same (hs : List (String × String)) (k v : String) :
    hget (hset hs k v) k = some v := by
  induction hs with
  | nil => simp [hset, hget]
  | cons p rest ih =>
      by_cases hk : p.1 = k
      · simp [hset, hget, hk]
      · simp [hset, hget, hk, ih]

lemma noContent_obs (c : Context) (k : Int) (h : c.resp.committed = false) :
    (c.NoContent k).resp.status = k ∧ (c.NoContent k).resp.committed = true ∧
    (c.NoContent k).body = c.body ∧ (c.NoContent k).headers = c.headers := by
  simp [Context.NoContent, Context.SetStatus, Response.WriteHeader, h]

lemma json_obs (c : Context) (k : Int) (m : String) (h : c.resp.committed = false) :
    (c.JSON k m).resp.status = k ∧ (c.JSON k m).resp.committed = true ∧
    (c.JSON k m).body = c.body ++ [renderJsonError m] ∧
    hget (c.JSON k m).headers "Content-Type" = some "application/json" := by
  simp [Context.JSON, Context.writeBody, Context.SetStatus, Context.SetHeader,
    Response.WriteHeader, Response.Write, h, hget_hset_same]

/-- The status/message pair the default error handler derives from a
failure: an HTTPError's own pair, unless its Internal is itself an
HTTPError, whose pair then replaces it; anything else maps to 500 with
the failure's textual description. -/
def errStatusMsg : Err → Int × String
  | .other d => (500, d)
  | .httpNoInternal sc m => (sc, m)
  | .httpWithInternal sc m i =>
      match i with
      | .httpNoInternal sc2 m2 => (sc2, m2)
      | .httpWithInternal sc2 m2 _ => (sc2, m2)
      | .other _ => (sc, m)

lemma defaultErrHandler_eq (c : Context) (e : Err) (h : c.resp.committed = false) :
    DefaultErrHandlerFunc e c =
      if reqMethod c = "HEAD" then c.NoContent (errStatusMsg e).1
      else c.JSON (errStatusMsg e).1 (errStatusMsg e).2 := by
  cases e with
  | other d => simp [DefaultErrHandlerFunc, errStatusMsg, h]
  | httpNoInternal sc m => simp [DefaultErrHandlerFunc, errStatusMsg, h]
  | httpWithInternal sc m i => cases i <;> simp [DefaultErrHandlerFunc, errStatusMsg, h]

/-- Claim C3 (amended): on an uncommitted response the default error
handler emits the classified status — an HTTPError's own status/message
unless its Internal wraps an HTTPError, which then takes over; 500 with
the error text otherwise — with no body for HEAD requests and otherwise
exactly the JSON error object under Content-Type application/json
(without a charset parameter). -/
theorem err_handler_behavior (c : Context) (e : Err) (h : c.resp.committed = false) :
    (reqMethod c = "HEAD" →
        (DefaultErrHandlerFunc e c).resp.status = (errStatusMsg e).1 ∧
        (DefaultErrHandlerFunc e c).resp.committed = true ∧
        (DefaultErrHandlerFunc e c).body = c.body ∧
        (DefaultErrHandlerFunc e c).headers = c.headers)
    ∧ (¬ reqMethod c = "HEAD" →
        (DefaultErrHandlerFunc e c).resp.status = (errStatusMsg e).1 ∧
        (DefaultErrHandlerFunc e c).resp.committed = true ∧
        (DefaultErrHandlerFunc e c).body = c.body ++ [renderJsonError (errStatusMsg e).2] ∧
        hget (DefaultErrHandlerFunc e c).headers "Content-Type" =
          some "application/json") := by
  constructor
  · intro hm
    rw [defaultErrHandler_eq c e h, if_pos hm]
    exact noContent_obs c (errStatusMsg e).1 h
  · intro hm
    rw [defaultErrHandler_eq c e h, if_neg hm]
    exact json_obs c (errStatusMsg e).1 (errStatusMsg e).2 h

/-- Concrete instance discharging the hypotheses of
`err_handler_behavior`. -/
theorem err_handler_behavior_witness :
    ((ctx0.reset 1 (some ⟨"GET", "/x", "", "", ""⟩)).resp.committed = false ∧
     ¬ reqMethod (ctx0.reset 1 (some ⟨"GET", "/x", "", "", ""⟩)) = "HEAD") ∧
    ((DefaultErrHandlerFunc (Err.other "boom")
        (ctx0.reset 1 (some ⟨"GET", "/x", "", "", ""⟩))).resp.status =
      (errStatusMsg (Err.other "boom")).1 ∧
     (DefaultErrHandlerFunc (Err.other "boom")
        (ctx0.reset 1 (some ⟨"GET", "/x", "", "", ""⟩))).resp.committed = true ∧
     (DefaultErrHandlerFunc (Err.other "boom")
        (ctx0.reset 1 (some ⟨"GET", "/x", "", "", ""⟩))).body =
       (ctx0.reset 1 (some ⟨"GET", "/x", "", "", ""⟩)).body ++
         [renderJsonError (errStatusMsg (Err.other "boom")).2] ∧
     hget (DefaultErrHandlerFunc (Err.other "boom")
        (ctx0.reset 1 (some ⟨"GET", "/x", "", "", ""⟩))).headers "Content-Type" =
       some "application/json") :=
  ⟨⟨by decide, by decide⟩,
   (err_handler_behavior (ctx0.reset 1 (some ⟨"GET", "/x", "", "", ""⟩))
      (Err.other "boom") (by decide)).2 (by decide)⟩

/-- Claim C3 as stated is false: for the failure HTTPError 404 "not
found" wrapping an internal HTTPError 503 "oops", on a fresh GET request
the handler emits 503 (not the outer error's own 404) and the
Content-Type is application/json without the claimed charset parameter. -/
theorem err_handler_claim_counterexample :
    (DefaultErrHandlerFunc
        (Err.httpWithInternal 404 "not found" (Err.httpNoInternal 503 "oops"))
        (ctx0.reset 1 (some ⟨"GET", "/x", "", "", ""⟩))).resp.status = 503 ∧
    ¬ (DefaultErrHandlerFunc
        (Err.httpWithInternal 404 "not found" (Err.httpNoInternal 503 "oops"))
        (ctx0.reset 1 (some ⟨"GET", "/x", "", "", ""⟩))).resp.status = 404 ∧
    hget (DefaultErrHandlerFunc
        (Err.httpWithInternal 404 "not found" (Err.httpNoInternal 503 "oops"))
        (ctx0.reset 1 (some ⟨"GET", "/x", "", "", ""⟩))).headers "Content-Type" =
      some "application/json" ∧
    ¬ hget (DefaultErrHandlerFunc
        (Err.httpWithInternal 404 "not found" (Err.httpNoInternal 503 "oops"))
        (ctx0.reset 1 (some ⟨"GET", "/x", "", "", ""⟩))).headers "Content-Type" =
      some "application/json; charset=UTF-8" := by
  refine ⟨by decide, by decide, by decide, by decide⟩

lemma writeHeader_inv (r : Response) (k : Int) (h : headerInv r) :
    headerInv (r.WriteHeader k) := by
  by_cases hc : r.committed
  · simpa [Response.WriteHeader, hc] using h
  · simp only [headerInv, hc, if_false] at h
    simp [Response.WriteHeader, headerInv, hc, h]

lemma write_inv (r : Response) (b : String) (h : headerInv r) :
    headerInv (r.Write b) := by
  by_cases hc : r.committed
  · simpa [Response.Write, hc, headerInv] using h
  · by_cases h0 : r.status = 0
    · simp only [headerInv, hc, if_false] at h
      simp [Response.Write, Response.WriteHeader, headerInv, hc, h0, h]
    · simp only [headerInv, hc, if_false] at h
      simp [Response.Write, Response.WriteHeader, headerInv, hc, h0, h]

lemma noContent_resp (c : Context) (k : Int) :
    (c.NoContent k).resp = c.resp.WriteHeader k := rfl

lemma json_resp (c : Context) (k : Int) (m : String) :
    (c.JSON k m).resp = (c.resp.WriteHeader k).Write (renderJsonError m) := rfl

lemma defaultErrHandler_resp_inv (c : Context) (e : Err) (h : headerInv c.resp) :
    headerInv (DefaultErrHandlerFunc e c).resp := by
  by_cases hc : c.resp.committed = false
  · rw [defaultErrHandler_eq c e hc]
    by_cases hm : reqMethod c = "HEAD"
    · rw [if_pos hm, noContent_resp]
      exact writeHeader_inv _ _ h
    · rw [if_neg hm, json_resp]
      exact write_inv _ _ (writeHeader_inv _ _ h)
  · have hc' : c.resp.committed = true := by
      cases hcc : c.resp.committed
      · exact absurd hcc hc
      · rfl
    simpa [DefaultErrHandlerFunc, hc'] using h

lemma cstep_inv (c : Context) (op : COp) (h : headerInv c.resp) :
    headerInv (cstep c op).resp := by
  cases op with
  | setStat code => exact writeHeader_inv _ _ h
  | writeB b => exact write_inv _ _ h
  | hdr k v => exact h
  | jsonW code msg => rw [cstep, json_resp]; exact write_inv _ _ (writeHeader_inv _ _ h)
  | noCont code => exact writeHeader_inv _ _ h
  | redir code url =>
      by_cases hr : code < 300 ∨ 399 < code
      · simpa [cstep, Context.Redirect, hr] using h
      · simpa [cstep, Context.Redirect, hr, Context.SetStatus, Context.SetHeader] using
          writeHeader_inv c.resp code h
  | errH e => exact defaultErrHandler_resp_inv _ e h

lemma crun_inv (ops : List COp) (c : Context) (h : headerInv c.resp) :
    headerInv (crun c ops).resp := by
  induction ops generalizing c with
  | nil => exact h
  | cons op ops ih => exact ih (cstep c op) (cstep_inv c op h)

/-- Claim C4 (amended): an error-handler invocation on an
already-committed response changes nothing, and across any sequence of
request operations — including any number of error-handler
invocations — the underlying writer's header is written at most once per
request; the handler is, however, not invoked exactly once per failing
request (see the counterexample). -/
theorem err_handler_single_effect :
    (∀ (c : Context) (e : Err), c.resp.committed = true →
        DefaultErrHandlerFunc e c = c)
    ∧ (∀ (c : Context) (ops : List COp), headerInv c.resp → headerInv (crun c ops).resp)
    ∧ (∀ (w : Nat) (r : Req) (ops : List COp),
        (crun (ctx0.reset w (some r)) ops).resp.wireHeaderWrites ≤ 1) := by
  refine ⟨?_, ?_, ?_⟩
  · intro c e h
    simp [DefaultErrHandlerFunc, h]
  · intro c ops h
    exact crun_inv ops c h
  · intro w r ops
    have h0 : headerInv (ctx0.reset w (some r)).resp := by
      simp [headerInv, Context.reset]
    have h1 := crun_inv ops _ h0
    rw [headerInv] at h1
    rw [h1]
    by_cases hc : (crun (ctx0.reset w (some r)) ops).resp.committed <;> simp [hc]

/-- Concrete instance discharging the hypotheses of
`err_handler_single_effect`. -/
theorem err_handler_single_effect_witness :
    ((ctx0.reset 1 (some ⟨"GET", "/x", "", "", ""⟩)).SetStatus 204).resp.committed = true ∧
    DefaultErrHandlerFunc (Err.other "late")
        ((ctx0.reset 1 (some ⟨"GET", "/x", "", "", ""⟩)).SetStatus 204) =
      (ctx0.reset 1 (some ⟨"GET", "/x", "", "", ""⟩)).SetStatus 204 :=
  ⟨by decide,
   err_handler_single_effect.1
     ((ctx0.reset 1 (some ⟨"GET", "/x", "", "", ""⟩)).SetStatus 204)
     (Err.other "late") (by decide)⟩

/-- Claim C4 as stated is false: a GET request through the Logger
middleware whose handler fails with an opaque error invokes the engine
error handler twice — once from the Logger's c.Error call and once from
the dispatch — not exactly once. -/
theorem logger_double_invocation :
    (zestServe [loggerMw] (fun c => (c, some (Err.other "boom"))) 1
        ⟨"GET", "/x", "", "", ""⟩).errCalls = 2 ∧
    ¬ (zestServe [loggerMw] (fun c => (c, some (Err.other "boom"))) 1
        ⟨"GET", "/x", "", "", ""⟩).errCalls = 1 := by
  refine ⟨by decide, by decide⟩

/-- Claim C6 (amended): from any prior Context state, reset leaves the
side store empty, rebinds the request and the response writer, clears the
committed flag and the byte count, and restores the status to the default
200 (StatusOK) — not to the unset value 0. -/
theorem reset_clears_state (c : Context) (w : Nat) (r : Option Req) :
    (c.reset w r).store = [] ∧
    (c.reset w r).request = r ∧
    (c.reset w r).resp.writerId = w ∧
    (c.reset w r).resp.committed = false ∧
    (c.reset w r).resp.size = 0 ∧
    (c.reset w r).resp.status = 200 ∧
    (c.reset w r).headers = [] ∧
    (c.reset w r).body = [] ∧
    (c.reset w r).path = (match r with | some rq => rq.path | none => "") ∧
    (c.reset w r).method = (match r with | some rq => rq.method | none => "") := by
  refine ⟨rfl, rfl, rfl, rfl, rfl, rfl, rfl, rfl, rfl, rfl⟩

/-- Claim C6 as stated is false on the status: resetting a Context left
dirty by a previous request (store entry, 404 committed response) yields
status 200, not the unset value 0 that the data model calls cleared. -/
theorem reset_status_counterexample :
    ((((ctx0.reset 1 (some ⟨"GET", "/a", "", "", ""⟩)).JSON 404 "gone").Set "k" "v").reset 2
        (some ⟨"POST", "/b", "", "", ""⟩)).resp.status = 200 ∧
    ¬ ((((ctx0.reset 1 (some ⟨"GET", "/a", "", "", ""⟩)).JSON 404 "gone").Set "k" "v").reset 2
        (some ⟨"POST", "/b", "", "", ""⟩)).resp.status = 0 := by
  refine ⟨by decide, by decide⟩

/-- Claim C10 (amended): Redirect with a status outside 300..399 returns
an error and leaves the Context entirely unchanged; with a status in
300..399 it returns no error and, when the response is not yet committed,
sets the Location header to the url and commits exactly that status —
on an already-committed response the status is left unchanged instead. -/
theorem redirect_behavior :
    (∀ (c : Context) (s : Int) (u : String), s < 300 ∨ 399 < s →
        c.Redirect s u = (c, some (Err.other "invalid status code")))
    ∧ (∀ (c : Context) (s : Int) (u : String), 300 ≤ s → s ≤ 399 →
        c.resp.committed = false →
          (c.Redirect s u).2 = none ∧
          (c.Redirect s u).1.resp.status = s ∧
          (c.Redirect s u).1.resp.committed = true ∧
          hget (c.Redirect s u).1.headers "Location" = some u) := by
  constructor
  · intro c s u hs
    simp [Context.Redirect, hs]
  · intro c s u h1 h2 hc
    have hs : ¬ (s < 300 ∨ 399 < s) := by omega
    simp [Context.Redirect, hs, Context.SetStatus, Context.SetHeader,
      Response.WriteHeader, hc, hget_hset_same]

/-- Concrete instance discharging the hypotheses of `redirect_behavior`. -/
theorem redirect_behavior_witness :
    (((ctx0.reset 1 (some ⟨"GET", "/x", "", "", ""⟩)).Redirect 200 "/u") =
        (ctx0.reset 1 (some ⟨"GET", "/x", "", "", ""⟩),
         some (Err.other "invalid status code"))) ∧
    (((ctx0.reset 1 (some ⟨"GET", "/x", "", "", ""⟩)).Redirect 302 "/u").2 = none ∧
     ((ctx0.reset 1 (some ⟨"GET", "/x", "", "", ""⟩)).Redirect 302 "/u").1.resp.status = 302 ∧
     ((ctx0.reset 1 (some ⟨"GET", "/x", "", "", ""⟩)).Redirect 302 "/u").1.resp.committed = true ∧
     hget ((ctx0.reset 1 (some ⟨"GET", "/x", "", "", ""⟩)).Redirect 302 "/u").1.headers
        "Location" = some "/u") :=
  ⟨redirect_behavior.1 (ctx0.reset 1 (some ⟨"GET", "/x", "", "", ""⟩)) 200 "/u"
     (by decide),
   redirect_behavior.2 (ctx0.reset 1 (some ⟨"GET", "/x", "", "", ""⟩)) 302 "/u"
     (by decide) (by decide) (by decide)⟩

/-- Claim C10 as stated is false on a committed response: after the
response has committed with status 200, Redirect 301 returns no error but
does not commit status 301 — the status stays 200. -/
theorem redirect_committed_counterexample :
    (((ctx0.reset 1 (some ⟨"GET", "/x", "", "", ""⟩)).SetStatus 200).Redirect 301
        "/u").1.resp.status = 200 ∧
    ¬ (((ctx0.reset 1 (some ⟨"GET", "/x", "", "", ""⟩)).SetStatus 200).Redirect 301
        "/u").1.resp.status = 301 := by
  refine ⟨by decide, by decide⟩

/-- Claim C8: ClientIP returns the first comma-separated X-Forwarded-For
value when its trimmed form is non-empty, else the trimmed X-Real-Ip
value when non-empty, else the peer address with its port stripped. -/
theorem client_ip_precedence (r : Req) :
    (¬ goTrim (goCutXFF r.xff) = "" →
        (ctx0.reset 1 (some r)).ClientIP = goTrim (goCutXFF r.xff))
    ∧ (goTrim (goCutXFF r.xff) = "" → ¬ goTrim r.xreal = "" →
        (ctx0.reset 1 (some r)).ClientIP = goTrim r.xreal)
    ∧ (goTrim (goCutXFF r.xff) = "" → goTrim r.xreal = "" →
        ∀ host port, splitHostPort (goTrim r.remote) = some (host, port) →
          (ctx0.reset 1 (some r)).ClientIP = host) := by
  refine ⟨?_, ?_, ?_⟩
  · intro h1
    simp [Context.ClientIP, Context.reset, clientIPOf, h1]
  · intro h1 h2
    simp [Context.ClientIP, Context.reset, clientIPOf, h1, h2]
  · intro h1 h2 host port h3
    simp [Context.ClientIP, Context.reset, clientIPOf, h1, h2, h3]

/-- Concrete instances discharging the hypotheses of
`client_ip_precedence`, one per precedence level. -/
theorem client_ip_precedence_witness :
    (ctx0.reset 1 (some ⟨"GET", "/", " 1.2.3.4 , 10.0.0.1", "8.8.8.8",
        "9.9.9.9:80"⟩)).ClientIP = goTrim (goCutXFF " 1.2.3.4 , 10.0.0.1") ∧
    (ctx0.reset 1 (some ⟨"GET", "/", "  ", " 8.8.8.8 ",
        "9.9.9.9:80"⟩)).ClientIP = goTrim " 8.8.8.8 " ∧
    (ctx0.reset 1 (some ⟨"GET", "/", "", "", "9.9.9.9:80"⟩)).ClientIP = "9.9.9.9" :=
  ⟨(client_ip_precedence ⟨"GET", "/", " 1.2.3.4 , 10.0.0.1", "8.8.8.8",
      "9.9.9.9:80"⟩).1 (by decide),
   (client_ip_precedence ⟨"GET", "/", "  ", " 8.8.8.8 ", "9.9.9.9:80"⟩).2.1
     (by decide) (by decide),
   (client_ip_precedence ⟨"GET", "/", "", "", "9.9.9.9:80"⟩).2.2
     (by decide) (by decide) "9.9.9.9" "80" (by decide)⟩

/-- Claim C9: the process-wide catch-all registered by New produces its
404 through the very same error-handler dispatch as a route handler that
fails with HTTPError 404 "not found", and on a non-HEAD request the
client sees status 404 with the standard JSON error body and
Content-Type. -/
theorem not_found_via_error_handler (w : Nat) (r : Req) :
    catchAllServe w r =
      zestServe [] (fun c => (c, some (Err.httpNoInternal 404 "not found"))) w r
    ∧ (¬ r.method = "HEAD" →
        (catchAllServe w r).resp.status = 404 ∧
        (catchAllServe w r).resp.committed = true ∧
        (catchAllServe w r).body = [renderJsonError "not found"] ∧
        hget (catchAllServe w r).headers "Content-Type" = some "application/json") := by
  constructor
  · rfl
  · intro hm
    have hc : ({ ctx0.reset w (some r) with
        errCalls := (ctx0.reset w (some r)).errCalls + 1 } : Context).resp.committed =
          false := rfl
    have hm' : ¬ reqMethod ({ ctx0.reset w (some r) with
        errCalls := (ctx0.reset w (some r)).errCalls + 1 } : Context) = "HEAD" := by
      simpa [reqMethod, Context.reset] using hm
    have h := json_obs ({ ctx0.reset w (some r) with
        errCalls := (ctx0.reset w (some r)).errCalls + 1 } : Context) 404 "not found" hc
    have he := defaultErrHandler_eq ({ ctx0.reset w (some r) with
        errCalls := (ctx0.reset w (some r)).errCalls + 1 } : Context)
      (Err.httpNoInternal 404 "not found") hc
    rw [if_neg hm'] at he
    have hrw : catchAllServe w r =
        ({ ctx0.reset w (some r) with
            errCalls := (ctx0.reset w (some r)).errCalls + 1 } : Context).JSON
          404 "not found" := by
      rw [catchAllServe, errHandlerInvoke, he]
      simp [errStatusMsg]
    rw [hrw]
    simpa [Context.reset] using h

/-- Concrete instance discharging the hypothesis of
`not_found_via_error_handler`. -/
theorem not_found_via_error_handler_witness :
    (catchAllServe 1 ⟨"GET", "/nosuch", "", "", ""⟩).resp.status = 404 ∧
    (catchAllServe 1 ⟨"GET", "/nosuch", "", "", ""⟩).resp.committed = true ∧
    (catchAllServe 1 ⟨"GET", "/nosuch", "", "", ""⟩).body =
      [renderJsonError "not found"] ∧
    hget (catchAllServe 1 ⟨"GET", "/nosuch", "", "", ""⟩).headers "Content-Type" =
      some "application/json" :=
  (not_found_via_error_handler 1 ⟨"GET", "/nosuch", "", "", ""⟩).2 (by decide)

lemma lexGT_irrefl : ∀ a : List Nat, lexGT a a = false
  | [] => rfl
  | x :: xs => by simp [lexGT, lexGT_irrefl xs]

lemma lexGT_asymm : ∀ a b : List Nat, lexGT a b = true → lexGT b a = false
  | [], [], h => by simp [lexGT] at h
  | [], _ :: _, _ => rfl
  | _ :: _, [], h => by simp [lexGT] at h
  | x :: xs, y :: ys, h => by
      by_cases h1 : y < x
      · have h2 : ¬ x < y := by omega
        simp [lexGT, h1, h2]
      · by_cases h2 : x < y
        · simp [lexGT, h1, h2] at h
        · simp only [lexGT, if_neg h1, if_neg h2] at h
          simp [lexGT, h1, h2, lexGT_asymm xs ys h]

lemma lexGT_trans : ∀ a b c : List Nat,
    lexGT a b = true → lexGT b c = true → lexGT a c = true
  | [], [], _, h1, _ => by simp [lexGT] at h1
  | [], _ :: _, [], _, h2 => by simp [lexGT] at h2
  | [], _ :: _, _ :: _, _, _ => rfl
  | _ :: _, [], _, h1, _ => by simp [lexGT] at h1
  | _ :: _, _ :: _, [], _, h2 => by simp [lexGT] at h2
  | x :: xs, y :: ys, z :: zs, h1, h2 => by
      by_cases hyx : y < x
      · by_cases hzy : z < y
        · have : z < x := by omega
          simp [lexGT, this]
        · by_cases hyz : y < z
          · simp [lexGT, hzy, hyz] at h2
          · have hz : z = y := by omega
            have : z < x := by omega
            simp [lexGT, this]
      · by_cases hxy : x < y
        · simp [lexGT, hyx, hxy] at h1
        · have hx : x = y := by omega
          simp only [lexGT, if_neg hyx, if_neg hxy] at h1
          by_cases hzy : z < y
          · have : z < x := by omega
            simp [lexGT, this]
          · by_cases hyz : y < z
            · simp [lexGT, hzy, hyz] at h2
            · simp only [lexGT, if_neg hzy, if_neg hyz] at h2
              have hzx : ¬ z < x := by omega
              have hxz : ¬ x < z := by omega
              simp [lexGT, hzx, hxz, lexGT_trans xs ys zs h1 h2]

lemma lexGT_total : ∀ a b : List Nat, a = b ∨ lexGT a b = true ∨ lexGT b a = true
  | [], [] => Or.inl rfl
  | [], _ :: _ => Or.inr (Or.inl rfl)
  | _ :: _, [] => Or.inr (Or.inr rfl)
  | x :: xs, y :: ys => by
      by_cases hyx : y < x
      · exact Or.inr (Or.inl (by simp [lexGT, hyx]))
      · by_cases hxy : x < y
        · exact Or.inr (Or.inr (by simp [lexGT, hxy]))
        · have hx : x = y := by omega
          rcases lexGT_total xs ys with h | h | h
          · exact Or.inl (by rw [hx, h])
          · exact Or.inr (Or.inl (by simp [lexGT, hyx, hxy, h]))
          · exact Or.inr (Or.inr (by
              have hyx' : ¬ y < x := hyx
              simp [lexGT, hx, h]))

lemma lexGT_neg_trans (a b c : List Nat) (h1 : lexGT a b = false)
    (h2 : lexGT b c = false) : lexGT a c = false := by
  by_contra hac
  have hac' : lexGT a c = true := by
    cases h : lexGT a c
    · exact absurd h hac
    · rfl
  rcases lexGT_total a b with h | h | h
  · rw [h] at hac'
    exact absurd hac' (by rw [h2]; simp)
  · exact absurd h (by rw [h1]; simp)
  · have := lexGT_trans b a c h hac'
    exact absurd this (by rw [h2]; simp)

lemma resolve_none : ∀ (rs : List Route) (m : String) (path : List String),
    resolve rs m path = none →
      ∀ r' ∈ rs, r'.method = m → matchPat r'.pat path = none := by
  intro rs
  induction rs with
  | nil => intro m path _ r' hr'; simp at hr'
  | cons r rs ih =>
      intro m path h r' hr' hm'
      rw [resolve] at h
      by_cases hm : r.method = m
      · rw [if_pos hm] at h
        cases hmp : matchPat r.pat path with
        | some b =>
            rw [hmp] at h
            cases hrest : resolve rs m path with
            | none => rw [hrest] at h; simp at h
            | some p =>
                rw [hrest] at h
                by_cases hgt : lexGT (ranksOf p.1.pat) (ranksOf r.pat) = true <;>
                  simp [hgt] at h
        | none =>
            rw [hmp] at h
            rcases List.mem_cons.mp hr' with he | hin
            · rw [he]; exact hmp
            · exact ih m path h r' hin hm'
      · rw [if_neg hm] at h
        rcases List.mem_cons.mp hr' with he | hin
        · rw [he] at hm'; exact absurd hm' hm
        · exact ih m path h r' hin hm'

lemma resolve_spec : ∀ (rs : List Route) (m : String) (path : List String)
    (r : Route) (b : List (String × String)), resolve rs m path = some (r, b) →
      r ∈ rs ∧ r.method = m ∧ matchPat r.pat path = some b ∧
      ∀ r' b', r' ∈ rs → r'.method = m → matchPat r'.pat path = some b' →
        lexGT (ranksOf r'.pat) (ranksOf r.pat) = false := by
  intro rs
  induction rs with
  | nil => intro m path r b h; rw [resolve] at h; simp at h
  | cons r0 rs ih =>
      intro m path r b h
      rw [resolve] at h
      by_cases hm : r0.method = m
      · rw [if_pos hm] at h
        cases hmp : matchPat r0.pat path with
        | some b0 =>
            rw [hmp] at h
            cases hrest : resolve rs m path with
            | none =>
                rw [hrest] at h
                have hrb : r0 = r ∧ b0 = b := by
                  have := h
                  simp at this
                  exact ⟨this.1, this.2⟩
                refine ⟨by rw [← hrb.1]; exact List.mem_cons_self r0 rs,
                  by rw [← hrb.1]; exact hm,
                  by rw [← hrb.1, ← hrb.2]; exact hmp, ?_⟩
                intro r' b' hr' hm' hmp'
                rcases List.mem_cons.mp hr' with he | hin
                · rw [he, ← hrb.1]; exact lexGT_irrefl _
                · have := resolve_none rs m path hrest r' hin hm'
                  rw [this] at hmp'
                  exact absurd hmp' (by simp)
            | some p =>
                rw [hrest] at h
                obtain ⟨r1, b1⟩ := p
                have hspec := ih m path r1 b1 hrest
                by_cases hgt : lexGT (ranksOf r1.pat) (ranksOf r0.pat) = true
                · simp only [hgt, if_true] at h
                  have hrb : r1 = r ∧ b1 = b := by
                    have h2 := h
                    simp at h2
                    exact ⟨h2.1, h2.2⟩
                  obtain ⟨hre, hbe⟩ := hrb
                  subst hre
                  subst hbe
                  refine ⟨List.mem_cons_of_mem r0 hspec.1, hspec.2.1,
                    hspec.2.2.1, ?_⟩
                  intro r' b' hr' hm' hmp'
                  rcases List.mem_cons.mp hr' with he | hin
                  · rw [he]; exact lexGT_asymm _ _ hgt
                  · exact hspec.2.2.2 r' b' hin hm' hmp'
                · have hgt' : lexGT (ranksOf r1.pat) (ranksOf r0.pat) = false := by
                    simpa using hgt
                  simp only [hgt', Bool.false_eq_true, if_false] at h
                  have hrb : r0 = r ∧ b0 = b := by
                    have h2 := h
                    simp at h2
                    exact ⟨h2.1, h2.2⟩
                  obtain ⟨hre, hbe⟩ := hrb
                  subst hre
                  subst hbe
                  refine ⟨List.mem_cons_self r0 rs, hm, hmp, ?_⟩
                  intro r' b' hr' hm' hmp'
                  rcases List.mem_cons.mp hr' with he | hin
                  · rw [he]; exact lexGT_irrefl _
                  · exact lexGT_neg_trans _ _ _
                      (hspec.2.2.2 r' b' hin hm' hmp') hgt'
        | none =>
            rw [hmp] at h
            have hspec := ih m path r b h
            refine ⟨List.mem_cons_of_mem r0 hspec.1, hspec.2.1, hspec.2.2.1, ?_⟩
            intro r' b' hr' hm' hmp'
            rcases List.mem_cons.mp hr' with he | hin
            · rw [he] at hmp'
              rw [hmp] at hmp'
              exact absurd hmp' (by simp)
            · exact hspec.2.2.2 r' b' hin hm' hmp'
      · rw [if_neg hm] at h
        have hspec := ih m path r b h
        refine ⟨List.mem_cons_of_mem r0 hspec.1, hspec.2.1, hspec.2.2.1, ?_⟩
        intro r' b' hr' hm' hmp'
        rcases List.mem_cons.mp hr' with he | hin
        · rw [he] at hm'; exact absurd hm' hm
        · exact hspec.2.2.2 r' b' hin hm' hmp'

/-- The wildcard route /assets/\x7bpath...\x7d of the spec's example. -/
def wildRoute : Route :=
  { method := "GET", pat := [Seg.lit "assets", Seg.wild "path"], hid := 1 }

/-- The literal route /assets/logo.png of the spec's example. -/
def litRoute : Route :=
  { method := "GET", pat := [Seg.lit "assets", Seg.lit "logo.png"], hid := 2 }

/-- Claim C5 (spec-modelled resolver): a resolved route is always a
matching candidate that no other matching candidate outranks — literals
over captures over wildcards, position by position — and in the spec's
example, whichever way the two routes are registered, /assets/logo.png
goes to the literal route while /assets/css/a.css goes to the wildcard
route with captured value "css/a.css". -/
theorem route_specificity :
    (resolve [wildRoute, litRoute] "GET" ["assets", "logo.png"] =
        some (litRoute, []) ∧
     resolve [litRoute, wildRoute] "GET" ["assets", "logo.png"] =
        some (litRoute, []) ∧
     resolve [wildRoute, litRoute] "GET" ["assets", "css", "a.css"] =
        some (wildRoute, [("path", "css/a.css")]) ∧
     resolve [litRoute, wildRoute] "GET" ["assets", "css", "a.css"] =
        some (wildRoute, [("path", "css/a.css")]))
    ∧ (∀ (rs : List Route) (m : String) (path : List String) (r : Route)
          (b : List (String × String)), resolve rs m path = some (r, b) →
            r ∈ rs ∧ r.method = m ∧ matchPat r.pat path = some b ∧
            ∀ r' b', r' ∈ rs → r'.method = m → matchPat r'.pat path = some b' →
              lexGT (ranksOf r'.pat) (ranksOf r.pat) = false) := by
  exact ⟨⟨by decide, by decide, by decide, by decide⟩, resolve_spec⟩

/-- Concrete instance discharging the hypotheses of `route_specificity`. -/
theorem route_specificity_witness :
    litRoute ∈ [wildRoute, litRoute] ∧ litRoute.method = "GET" ∧
    matchPat litRoute.pat ["assets", "logo.png"] = some [] ∧
    ∀ r' b', r' ∈ [wildRoute, litRoute] → r'.method = "GET" →
      matchPat r'.pat ["assets", "logo.png"] = some b' →
        lexGT (ranksOf r'.pat) (ranksOf litRoute.pat) = false :=
  route_specificity.2 [wildRoute, litRoute] "GET" ["assets", "logo.png"]
    litRoute [] (by decide)

/-- Scenario step 1: p := z.Group("/p", mw 1) on an empty heap. -/
def scnP0 : SliceHeap × GroupS :=
  zestGroup ⟨[]⟩ "/p" [1]

/-- Scenario step 2: p.Use(mw 2). -/
def scnP1 : SliceHeap × GroupS :=
  groupUse scnP0.1 scnP0.2 [2]

/-- Scenario step 3: p.Use(mw 3) — the grown backing array now has
capacity 4 with length 3, leaving spare capacity. -/
def scnP2 : SliceHeap × GroupS :=
  groupUse scnP1.1 scnP1.2 [3]

/-- Scenario step 4: c1 := p.Group("/x", mw 4) — the child's slice fits
into the spare capacity and therefore shares the parent's backing
array. -/
def scnC1 : SliceHeap × GroupS :=
  groupGroup scnP2.1 scnP2.2 "/x" [4]

/-- Scenario step 5: p.Use(mw 5) after the child exists — this also fits
into the spare capacity of the same shared array. -/
def scnP3 : SliceHeap × GroupS :=
  groupUse scnC1.1 scnP2.2 [5]

/-- Claim C7: the code violates the no-shared-backing-storage contract.
Before the parent's later Use the child created by p.Group("/x", 4) views
middleware [1, 2, 3, 4]; after p.Use(5) the same child views
[1, 2, 3, 5] — the parent's append overwrote the child's fourth
middleware through the shared backing array — and a route registered
through the child from then on snapshots [1, 2, 3, 5]. -/
theorem group_slice_aliasing_leak :
    sliceVals scnC1.1 scnC1.2.mws = [1, 2, 3, 4] ∧
    sliceVals scnP3.1 scnC1.2.mws = [1, 2, 3, 5] ∧
    ¬ sliceVals scnP3.1 scnC1.2.mws = [1, 2, 3, 4] ∧
    groupHandleMws scnP3.1 scnC1.2 [] = [1, 2, 3, 5] ∧
    scnC1.2.pfx = "/p/x" := by
  refine ⟨by decide, by decide, by decide, by decide, by decide⟩

end Zest
